import Mathlib

/-!
Verification of the Sonar-Issue-Finder extension core
(`src/extension.ts`) against its specification.

The TypeScript source is shallowly embedded: each relevant function is
translated to a pure Lean definition; external effects (the filesystem,
the HTTP server, the lint engine, the editor) are modelled by explicit
parameters carried in an environment record.
-/

namespace SonarFinder

/-! ### Issue model (`SonarIssue`, src/extension.ts lines 12-20) -/

/-- The normalized issue value: `message`, `rule`, `severity`, `filePath`,
`line`, mirroring the `SonarIssue` class. -/
structure SonarIssue where
  message : String
  rule : String
  severity : String
  filePath : String
  line : Nat
deriving DecidableEq, Repr

/-! ### JavaScript-semantics helpers

The source uses `x || d` on strings and numbers, which substitutes the
default not only for missing (`undefined`) values but also for the falsy
values `""` and `0`. -/

/-- JS `x || d` for an optional string: `undefined` and `""` both give `d`. -/
def jsOrStr (x : Option String) (d : String) : String :=
  match x with
  | none => d
  | some s => if s = "" then d else s

/-- JS `x || d` for an optional number: `undefined` and `0` both give `d`. -/
def jsOrNat (x : Option Nat) (d : Nat) : Nat :=
  match x with
  | none => d
  | some n => if n = 0 then d else n

/-- JS template-string coercion of a possibly-`undefined` string. -/
def jsStr (x : Option String) : String := x.getD "undefined"

/-- Whether the character list `l` starts with the character list `p`. -/
def listStartsWith : List Char → List Char → Bool
  | _, [] => true
  | [], _ :: _ => false
  | a :: as, b :: bs => a = b && listStartsWith as bs

/-- Remove the first occurrence of `pat` from `l`
(JS `String.prototype.replace` with a string pattern and empty
replacement replaces only the first occurrence, anywhere in the string). -/
def removeFirstOcc : List Char → List Char → List Char
  | [], _ => []
  | c :: rest, pat =>
    if listStartsWith (c :: rest) pat then (c :: rest).drop pat.length
    else c :: removeFirstOcc rest pat

/-- String version of `removeFirstOcc`: JS `s.replace(pat, "")`. -/
def removeFirstStr (s pat : String) : String :=
  ⟨removeFirstOcc s.data pat.data⟩

/-- JS `s.replace(/^\/+/, "")`: strip leading path separators. -/
def dropLeadingSlashes (s : String) : String :=
  ⟨s.data.dropWhile (· = '/')⟩

/-- Model of Node `path.join(root, rel)` for a root without trailing
separator and a relative path without leading separator. -/
def pathJoin (root rel : String) : String :=
  root ++ "/" ++ rel

/-! ### Raw remote issue records

The remote response is duck-typed JSON; fields the source reads
optionally are modelled as `Option`. -/

/-- The `textRange` object of a raw remote issue; `startLine` may be
absent. -/
structure TextRange where
  startLine : Option Nat
deriving DecidableEq, Repr

/-- A raw remote issue record as consumed from the server response:
`message`, `rule`, `severity` and `textRange` may be absent;
`component` is always read. -/
structure RawIssue where
  message : Option String
  rule : Option String
  severity : Option String
  component : String
  textRange : Option TextRange
deriving DecidableEq, Repr

/-! ### Workspace/path reconciler (`filterByWorkspace`, lines 429-453) -/

/-- The relative path the code derives from a component identifier:
remove the first occurrence of `projectKey ++ ":"` anywhere in the
component, then strip leading slashes
(`issue.component.replace(projectKey + ":", "").replace(/^\/+/, "")`). -/
def componentRelPathCode (projectKey component : String) : String :=
  dropLeadingSlashes (removeFirstStr component (projectKey ++ ":"))

/-- The absolute path the code joins for a component identifier. -/
def componentAbsPathCode (projectKey workspaceRoot component : String) : String :=
  pathJoin workspaceRoot (componentRelPathCode projectKey component)

/-- Strip `pat` from the front of `s` when it is a prefix, else leave
`s` unchanged. -/
def dropPrefixIfPresent (s pat : String) : String :=
  if listStartsWith s.data pat.data then ⟨s.data.drop pat.data.length⟩ else s

/-- The absolute path as the specification words it: strip the
`projectKey:` PREFIX (rather than the first occurrence anywhere), strip
leading separators, join to the workspace root.  Stated only to compare
with `componentAbsPathCode`. -/
def componentAbsPathSpec (projectKey workspaceRoot component : String) : String :=
  pathJoin workspaceRoot (dropLeadingSlashes (dropPrefixIfPresent component (projectKey ++ ":")))

/-- The filter predicate of `filterByWorkspace`: the resolved absolute
path must exist (`fs.existsSync`, modelled by membership in `existing`),
and must equal `currentFile` when one is supplied. -/
def keepIssue (projectKey workspaceRoot : String) (existing : List String)
    (currentFile : Option String) (issue : RawIssue) : Bool :=
  let absPath := componentAbsPathCode projectKey workspaceRoot issue.component
  if !(existing.contains absPath) then false
  else
    match currentFile with
    | some cf => absPath == cf
    | none => true

/-- The map step of `filterByWorkspace`: build a `SonarIssue` with JS
`||` defaults (`"Unknown"`, `"Unknown"`, `"INFO"`, line `1`). -/
def reconcileIssue (projectKey workspaceRoot : String) (issue : RawIssue) : SonarIssue :=
  { message := jsOrStr issue.message "Unknown"
    rule := jsOrStr issue.rule "Unknown"
    severity := jsOrStr issue.severity "INFO"
    filePath := componentAbsPathCode projectKey workspaceRoot issue.component
    line := jsOrNat (issue.textRange.bind TextRange.startLine) 1 }

/-- `filterByWorkspace(issues, projectKey, workspaceRoot, currentFile)`:
filter the raw records by `keepIssue`, then normalize each survivor. -/
def filterByWorkspace (issues : List RawIssue) (projectKey workspaceRoot : String)
    (existing : List String) (currentFile : Option String) : List SonarIssue :=
  (issues.filter (keepIssue projectKey workspaceRoot existing currentFile)).map
    (reconcileIssue projectKey workspaceRoot)

/-! ### Severity mapper (`mapEslintSeverity`, lines 518-526) -/

/-- The input domain of `mapEslintSeverity`: `number | string`. -/
inductive EslintSeverity where
  | num (n : Int)
  | str (s : String)
deriving DecidableEq, Repr

/-- `mapEslintSeverity`: `2`/`"error"` give `CRITICAL`, `1`/`"warn"`
give `MAJOR`, anything else gives `INFO`. -/
def mapEslintSeverity (x : EslintSeverity) : String :=
  if x = .num 2 ∨ x = .str "error" then "CRITICAL"
  else if x = .num 1 ∨ x = .str "warn" then "MAJOR"
  else "INFO"

/-! ### Severity filter (lines 369-370) -/

/-- `issues.filter(issue => selectedSeverities.includes(issue.severity))`. -/
def filterBySeverities (selected : List String) (issues : List SonarIssue) : List SonarIssue :=
  issues.filter (fun issue => selected.contains issue.severity)

/-! ### Remote fetch client (`fetchIssues`, lines 394-426)

The HTTP server is modelled as a function from the page index to a
response: either a non-success status (`notOk`) or a parsed body
carrying the page's `issues` array and `paging.total`.  (A network or
JSON-parse failure makes the real function throw; that outcome is
modelled at the orchestrator level, see `FetchOutcome`.) -/

/-- A server response for one page: non-success HTTP status, or a body
with the page's records and the reported `paging.total`. -/
inductive FetchResp (α : Type) where
  | notOk
  | ok (issues : List α) (total : Nat)
deriving DecidableEq, Repr

/-- `const pageSize = 500`. -/
def pageSize : Nat := 500

/-- The pagination loop of `fetchIssues`, with fuel for termination (a
misbehaving server that always reports an uncovered total would loop
forever).  Returns the accumulated records and the number of page
requests issued.  On `notOk`: stop with what was accumulated.  On an
empty page: stop without accumulating.  Otherwise accumulate, and stop
when `total <= page * pageSize`. -/
def fetchLoop (server : Nat → FetchResp α) : Nat → Nat → List α → Nat → List α × Nat
  | 0, _, acc, reqs => (acc, reqs)
  | fuel + 1, page, acc, reqs =>
    match server page with
    | .notOk => (acc, reqs + 1)
    | .ok issues total =>
      if issues.isEmpty then (acc, reqs + 1)
      else
        let acc2 := acc ++ issues
        if total ≤ page * pageSize then (acc2, reqs + 1)
        else fetchLoop server fuel (page + 1) acc2 (reqs + 1)

/-- `fetchIssues`: run the pagination loop from page 1 with an empty
accumulator. -/
def fetchIssues (server : Nat → FetchResp α) (fuel : Nat) : List α × Nat :=
  fetchLoop server fuel 1 [] 0

/-! ### Grouped issue store + view adapter (`SonarIssuesProvider`,
lines 25-125) -/

/-- The observable state of a `SonarIssuesProvider`: the `issuesByFile`
map (association list in insertion order, keys unique), whether a tree
view is attached, the view's current message, and a counter of change
notifications fired. -/
structure ProviderState where
  issuesByFile : List (String × List SonarIssue)
  hasTreeView : Bool
  message : Option String
  changeEvents : Nat
deriving DecidableEq, Repr

/-- The fixed placeholder published when the issue set is empty. -/
def noIssuesMessage : String := " All good! No issues found."

/-- One step of the grouping loop in `setIssues`: append the issue to
its file's bucket, creating the bucket at the end on first sight
(JS `Map` preserves insertion order). -/
def insertIssue (m : List (String × List SonarIssue)) (i : SonarIssue) :
    List (String × List SonarIssue) :=
  if (m.map Prod.fst).contains i.filePath then
    m.map (fun p => if p.1 = i.filePath then (p.1, p.2 ++ [i]) else p)
  else m ++ [(i.filePath, [i])]

/-- The file→issues grouping built by `setIssues` from scratch. -/
def groupByFile (issues : List SonarIssue) : List (String × List SonarIssue) :=
  issues.foldl insertIssue []

/-- `setIssues(issues)`: clear and rebuild `issuesByFile`; set the
placeholder message when the input is empty and a view is attached,
clear it when non-empty and a view is attached; fire a change event. -/
def setIssues (issues : List SonarIssue) (st : ProviderState) : ProviderState :=
  { issuesByFile := groupByFile issues
    hasTreeView := st.hasTreeView
    message :=
      if issues.length = 0 ∧ st.hasTreeView then some noIssuesMessage
      else if st.hasTreeView then none
      else st.message
    changeEvents := st.changeEvents + 1 }

/-- A tree element: a file path (parent node) or an issue (leaf). -/
inductive TreeElem where
  | file (path : String)
  | item (issue : SonarIssue)
deriving DecidableEq, Repr

/-- `getChildren(element?)`: with no element, the sorted file keys
(JS `Array.prototype.sort()` is lexicographic); with a file key, its
issue list or `[]` when the key has no entry (`issues || []`); with an
issue, no children. -/
def getChildren (st : ProviderState) : Option TreeElem → List TreeElem
  | none =>
    (((st.issuesByFile.map Prod.fst).insertionSort (· ≤ ·)).map TreeElem.file)
  | some (.file f) =>
    ((st.issuesByFile.lookup f).getD []).map TreeElem.item
  | some (.item _) => []

/-! ### Local analysis runner (`runESLintAnalysis`, lines 456-496)

The lint engine is external; its output for one file is modelled as a
record of messages, and the normalization loop of the source is
embedded. -/

/-- One native lint message: `message`, optional `ruleId`, native
severity, 1-based `line`. -/
structure LintMessage where
  message : String
  ruleId : Option String
  severity : EslintSeverity
  line : Nat
deriving DecidableEq, Repr

/-- The engine's result for one file: the file path and its messages. -/
structure LintFileResult where
  filePath : String
  messages : List LintMessage
deriving DecidableEq, Repr

/-- The normalization loop of `runESLintAnalysis`: every message of
every result becomes a `SonarIssue` with `ruleId || "ESLint"` and
`mapEslintSeverity` applied. -/
def runESLintAnalysis (results : List LintFileResult) : List SonarIssue :=
  results.flatMap (fun result =>
    result.messages.map (fun msg =>
      { message := msg.message
        rule := jsOrStr msg.ruleId "ESLint"
        severity := mapEslintSeverity msg.severity
        filePath := result.filePath
        line := msg.line }))

/-! ### Scope modes and the refresh orchestrator
(`refreshAllIssues`, lines 326-390) -/

/-- The four scope modes. -/
inductive Mode where
  | overallAll
  | overallFile
  | newAll
  | newFile
deriving DecidableEq, Repr

/-- `mode.endsWith("file")`. -/
def modeEndsWithFile : Mode → Bool
  | .overallFile | .newFile => true
  | .overallAll | .newAll => false

/-- `mode.startsWith("new")`. -/
def modeStartsWithNew : Mode → Bool
  | .newAll | .newFile => true
  | .overallAll | .overallFile => false

/-- The horizon axis of a scope mode. -/
inductive Horizon where
  | overall
  | newCode
deriving DecidableEq, Repr

/-- The horizon of each of the four modes. -/
def horizonOf : Mode → Horizon
  | .overallAll | .overallFile => .overall
  | .newAll | .newFile => .newCode

/-- The parsed configuration file; each field may be missing from the
JSON (the source destructures without validating). -/
structure SonarConfig where
  server : Option String
  token : Option String
  projectKey : Option String
deriving DecidableEq, Repr

/-- The outcome of awaiting `fetchIssues` inside the orchestrator:
either the call throws (network or JSON-parse failure) or it returns a
list of raw records. -/
inductive FetchOutcome where
  | throws
  | returns (issues : List RawIssue)
deriving DecidableEq, Repr

/-- Whether the string `s` ends with the string `pat`. -/
def strEndsWith (s pat : String) : Bool :=
  listStartsWith s.data.reverse pat.data.reverse

/-- `**/*.{js,ts,jsx,tsx}`: the extension selector of `findFiles`. -/
def hasSourceExt (p : String) : Bool :=
  strEndsWith p ".js" || strEndsWith p ".ts" || strEndsWith p ".jsx" || strEndsWith p ".tsx"

/-- Split a character list at a separator character. -/
def splitCharAux (sep : Char) : List Char → List Char → List (List Char)
  | [], cur => [cur.reverse]
  | c :: rest, cur =>
    if c = sep then cur.reverse :: splitCharAux sep rest []
    else splitCharAux sep rest (c :: cur)

/-- The `/`-separated segments of a path. -/
def pathSegments (p : String) : List (List Char) :=
  splitCharAux '/' p.data []

/-- `**/node_modules/**`: the dependency-directory exclusion of
`findFiles`. -/
def inNodeModules (p : String) : Bool :=
  (pathSegments p).contains "node_modules".data

/-- `vscode.workspace.findFiles("**/*.{js,ts,jsx,tsx}", "**/node_modules/**")`
over the workspace's file listing. -/
def findFiles (allFiles : List String) : List String :=
  allFiles.filter (fun p => hasSourceExt p && !inNodeModules p)

/-- The environment one call of `refreshAllIssues` runs in: the
workspace root (when any folder is open), the parsed configuration file
(when present), the active editor's file, what the remote fetch will
do, what the lint engine will do (throw or return per-file results),
the set of existing filesystem paths, the workspace's file listing, and
the persisted `selectedSeverities`. -/
structure RefreshEnv where
  workspaceFolders : Option String
  configFile : Option SonarConfig
  currentFile : Option String
  fetchResult : FetchOutcome
  eslintResult : Except String (List LintFileResult)
  existingPaths : List String
  allWorkspaceFiles : List String
  selectedSeverities : List String
deriving Repr

/-- The observable effects of one `refreshAllIssues` call: the returned
list, whether the remote fetch was invoked, the file set handed to the
lint run (`none` when it was not invoked), whether the config-missing
warning was shown, the two lists handed to the diagnostics publisher,
and the list handed to the grouped store. -/
structure RefreshTrace where
  result : List SonarIssue
  fetchCalled : Bool
  eslintFiles : Option (List String)
  warnedConfigMissing : Bool
  published : Option (List SonarIssue × List SonarIssue)
  storeIssues : Option (List SonarIssue)
deriving DecidableEq, Repr

/-- `refreshAllIssues(mode)`: short-circuit on no workspace or missing
config; fetch and reconcile remote issues unless the mode is a
new-code mode (a thrown fetch is caught by the outer handler, which
returns `[]`); run the lint engine when the mode is new-code or
`overall-all`, over `[currentFile]` in file mode when a current file
exists and over the workspace's source files otherwise, swallowing a
lint failure into an empty local list; filter both lists by the
selected severities; publish them to diagnostics; hand the
concatenation to the store and return it. -/
def refreshAllIssues (env : RefreshEnv) (mode : Mode) : RefreshTrace :=
  match env.workspaceFolders with
  | none =>
    { result := [], fetchCalled := false, eslintFiles := none
      warnedConfigMissing := false, published := none, storeIssues := none }
  | some workspaceRoot =>
    match env.configFile with
    | none =>
      { result := [], fetchCalled := false, eslintFiles := none
        warnedConfigMissing := true, published := none, storeIssues := none }
    | some config =>
      let isFileMode := modeEndsWithFile mode
      let isNewMode := modeStartsWithNew mode
      match (if isNewMode then FetchOutcome.returns [] else env.fetchResult) with
      | .throws =>
        { result := [], fetchCalled := true, eslintFiles := none
          warnedConfigMissing := false, published := none, storeIssues := none }
      | .returns apiIssues =>
        let sonarIssues :=
          if isNewMode then []
          else
            filterByWorkspace apiIssues (jsStr config.projectKey) workspaceRoot
              env.existingPaths (if isFileMode then env.currentFile else none)
        let runsLocal := isNewMode || mode = Mode.overallAll
        let eslintFiles : Option (List String) :=
          if runsLocal then
            some (match isFileMode, env.currentFile with
              | true, some cf => [cf]
              | _, _ => findFiles env.allWorkspaceFiles)
          else none
        let localIssues : List SonarIssue :=
          if runsLocal then
            match env.eslintResult with
            | .ok results => runESLintAnalysis results
            | .error _ => []
          else []
        let filteredSonar := filterBySeverities env.selectedSeverities sonarIssues
        let filteredLocal := filterBySeverities env.selectedSeverities localIssues
        let combined := filteredSonar ++ filteredLocal
        { result := combined
          fetchCalled := !isNewMode
          eslintFiles := eslintFiles
          warnedConfigMissing := false
          published := some (filteredSonar, filteredLocal)
          storeIssues := some combined }

/-! ### Concrete instances used to evaluate the definitions -/

/-- A raw record whose component contains `p:` in the middle rather
than as a prefix. -/
def rawC3 : RawIssue :=
  { message := none, rule := none, severity := none
    component := "a/p:b", textRange := none }

/-- A raw record whose component decodes to an existing file and whose
`textRange.startLine` is present but zero. -/
def rawC3Line : RawIssue :=
  { message := none, rule := none, severity := none
    component := "p:c.ts", textRange := some { startLine := some 0 } }

/-- A well-formed raw record whose component is `projectKey:` followed
by a workspace-relative path. -/
def rawGood : RawIssue :=
  { message := some "msg", rule := some "ruleid", severity := some "MAJOR"
    component := "p:src/a.ts", textRange := some { startLine := some 5 } }

/-- A complete configuration. -/
def cfgFull : SonarConfig :=
  { server := some "https://sonar", token := some "t", projectKey := some "p" }

/-- A server reporting `paging.total = 1200` with pages 500, 500, 200. -/
def server1200 : Nat → FetchResp Unit := fun p =>
  if p = 1 ∨ p = 2 then .ok (List.replicate 500 ()) 1200
  else if p = 3 then .ok (List.replicate 200 ()) 1200
  else .ok [] 1200

/-- A server answering every page with a non-success status. -/
def serverDown : Nat → FetchResp Unit := fun _ => .notOk

/-- Environment with a workspace, a complete config, and a remote fetch
that throws. -/
def envC1 : RefreshEnv :=
  { workspaceFolders := some "/w", configFile := some cfgFull
    currentFile := none, fetchResult := .throws, eslintResult := .ok []
    existingPaths := [], allWorkspaceFiles := ["/w/a.ts"]
    selectedSeverities := ["BLOCKER"] }

/-- Environment with a workspace, a complete config, and a succeeding
(empty) remote fetch. -/
def envC2 : RefreshEnv :=
  { workspaceFolders := some "/w", configFile := some cfgFull
    currentFile := none, fetchResult := .returns [], eslintResult := .ok []
    existingPaths := [], allWorkspaceFiles := ["/w/a.ts"]
    selectedSeverities := ["BLOCKER"] }

/-- Like `envC2` with a current file in the active editor. -/
def envC2W : RefreshEnv :=
  { envC2 with currentFile := some "/w/cur.ts" }

/-- Environment whose configuration file exists but has none of the
required fields, while the lint engine finds one warning-level issue. -/
def envC8 : RefreshEnv :=
  { workspaceFolders := some "/w"
    configFile := some { server := none, token := none, projectKey := none }
    currentFile := none, fetchResult := .throws
    eslintResult := .ok [{ filePath := "/w/a.ts"
                           messages := [{ message := "m", ruleId := some "r"
                                          severity := .num 1, line := 3 }] }]
    existingPaths := [], allWorkspaceFiles := ["/w/a.ts"]
    selectedSeverities := ["MAJOR"] }

/-- Environment with no configuration file at all. -/
def envC8W : RefreshEnv :=
  { envC8 with configFile := none }

/-- Environment where the remote fetch returns one reconcilable record
and the lint engine throws. -/
def envC9 : RefreshEnv :=
  { workspaceFolders := some "/w", configFile := some cfgFull
    currentFile := none, fetchResult := .returns [rawGood]
    eslintResult := .error "boom"
    existingPaths := ["/w/src/a.ts"], allWorkspaceFiles := []
    selectedSeverities := ["MAJOR"] }

/-- A sample issue. -/
def issueA : SonarIssue :=
  { message := "m", rule := "r", severity := "BLOCKER"
    filePath := "/w/a.ts", line := 1 }

/-- A provider state with an attached view and one existing entry. -/
def stC7 : ProviderState :=
  { issuesByFile := [("/w/old.ts", [issueA])], hasTreeView := true
    message := none, changeEvents := 0 }

/-- A provider state with two file buckets, out of lexicographic order. -/
def stC10 : ProviderState :=
  { issuesByFile := [("/w/b.ts", [issueA]), ("/w/a.ts", [])]
    hasTreeView := true, message := none, changeEvents := 0 }

/-! ## Theorems -/

/-- Membership in the severity filter. -/
theorem mem_filterBySeverities {selected : List String} {issues : List SonarIssue}
    {i : SonarIssue} :
    i ∈ filterBySeverities selected issues ↔ i ∈ issues ∧ i.severity ∈ selected := by
  simp [filterBySeverities, List.mem_filter]

/-- C6: filtering with the singleton severity set `{S}` keeps exactly
the issues whose severity is `S`, applied independently to the
remote-derived and the local-derived list. -/
theorem c6_severity_filter (S : String) (remoteList localList : List SonarIssue) :
    (∀ i ∈ filterBySeverities [S] remoteList, i.severity = S) ∧
    (∀ i ∈ remoteList, i.severity = S → i ∈ filterBySeverities [S] remoteList) ∧
    (∀ i ∈ filterBySeverities [S] localList, i.severity = S) ∧
    (∀ i ∈ localList, i.severity = S → i ∈ filterBySeverities [S] localList) := by
  refine ⟨?_, ?_, ?_, ?_⟩ <;> intro i hi
  · exact (List.mem_singleton.mp (mem_filterBySeverities.mp hi).2)
  · exact fun hs => mem_filterBySeverities.mpr ⟨hi, List.mem_singleton.mpr hs⟩
  · exact (List.mem_singleton.mp (mem_filterBySeverities.mp hi).2)
  · exact fun hs => mem_filterBySeverities.mpr ⟨hi, List.mem_singleton.mpr hs⟩

/-- C6 witness: with `S = "BLOCKER"`, the sample issue of that severity
is retained by the filter. -/
theorem c6_witness : issueA ∈ filterBySeverities ["BLOCKER"] [issueA] :=
  (c6_severity_filter "BLOCKER" [issueA] []).2.1 issueA (by simp) rfl

/-- C5: `mapEslintSeverity` maps `2`/`"error"` to `CRITICAL` and
`1`/`"warn"` to `MAJOR`, every other input to `INFO`, and never
produces `BLOCKER` or `MINOR`. -/
theorem c5_mapEslintSeverity_total :
    mapEslintSeverity (.num 2) = "CRITICAL" ∧
    mapEslintSeverity (.str "error") = "CRITICAL" ∧
    mapEslintSeverity (.num 1) = "MAJOR" ∧
    mapEslintSeverity (.str "warn") = "MAJOR" ∧
    (∀ x : EslintSeverity, x ≠ .num 2 → x ≠ .str "error" → x ≠ .num 1 → x ≠ .str "warn" →
      mapEslintSeverity x = "INFO") ∧
    (∀ x : EslintSeverity, mapEslintSeverity x ≠ "BLOCKER" ∧ mapEslintSeverity x ≠ "MINOR") := by
  refine ⟨by decide, by decide, by decide, by decide, ?_, ?_⟩
  · intro x h2 he h1 hw
    unfold mapEslintSeverity
    rw [if_neg, if_neg]
    · rintro (rfl | rfl)
      · exact h1 rfl
      · exact hw rfl
    · rintro (rfl | rfl)
      · exact h2 rfl
      · exact he rfl
  · intro x
    unfold mapEslintSeverity
    split <;> [skip; split] <;> exact ⟨by decide, by decide⟩

/-- C5 witness: native level `0` maps to `INFO`, discharging the
hypotheses of the catch-all conjunct at a concrete input. -/
theorem c5_witness : mapEslintSeverity (.num 0) = "INFO" :=
  c5_mapEslintSeverity_total.2.2.2.2.1 (.num 0)
    (by decide) (by decide) (by decide) (by decide)

set_option maxRecDepth 8192 in
/-- C4: the pagination loop stops, returning the accumulator, on a
non-success response or an empty page; it stops after accumulating a
page that covers the reported total; and for a server reporting
`paging.total = 1200` with pages of 500, 500 and 200 records, exactly
3 pages are requested and 1200 records are returned. -/
theorem c4_pagination :
    (∀ (α : Type) (server : Nat → FetchResp α) (fuel page reqs : Nat) (acc : List α),
      server page = FetchResp.notOk →
      fetchLoop server (fuel + 1) page acc reqs = (acc, reqs + 1)) ∧
    (∀ (α : Type) (server : Nat → FetchResp α) (fuel page reqs total : Nat) (acc : List α),
      server page = FetchResp.ok [] total →
      fetchLoop server (fuel + 1) page acc reqs = (acc, reqs + 1)) ∧
    (∀ (α : Type) (server : Nat → FetchResp α) (fuel page reqs total : Nat)
      (acc issues : List α),
      server page = FetchResp.ok issues total → issues ≠ [] → total ≤ page * pageSize →
      fetchLoop server (fuel + 1) page acc reqs = (acc ++ issues, reqs + 1)) ∧
    (fetchIssues server1200 100).2 = 3 ∧
    (fetchIssues server1200 100).1.length = 1200 := by
  refine ⟨?_, ?_, ?_, by decide, by decide⟩
  · intro α server fuel page reqs acc h
    simp only [fetchLoop, h]
  · intro α server fuel page reqs total acc h
    simp only [fetchLoop, h, List.isEmpty_nil, if_true]
  · intro α server fuel page reqs total acc issues h hne hle
    have hni : issues.isEmpty = false := by
      cases issues with
      | nil => exact absurd rfl hne
      | cons a l => rfl
    simp [fetchLoop, h, hni, hle]

/-- C4 witness: on a server whose every response is non-success, a call
at page 1 with an empty accumulator returns the accumulator after the
single request. -/
theorem c4_witness : fetchLoop serverDown 1 1 ([] : List Unit) 0 = ([], 1) :=
  c4_pagination.1 Unit serverDown 0 1 0 [] rfl

/-- The filter predicate of the reconciler, characterized: the resolved
path must be in the existing set and must equal the current file when
one is supplied. -/
theorem keepIssue_eq_true_iff (pk root : String) (existing : List String)
    (cf : Option String) (raw : RawIssue) :
    keepIssue pk root existing cf raw = true ↔
      existing.contains (componentAbsPathCode pk root raw.component) = true ∧
      (∀ c, cf = some c → componentAbsPathCode pk root raw.component = c) := by
  cases cf with
  | none =>
    by_cases h : existing.contains (componentAbsPathCode pk root raw.component) <;>
      simp [keepIssue, h]
  | some c =>
    by_cases h : existing.contains (componentAbsPathCode pk root raw.component) <;>
      simp [keepIssue, h]

/-- C3 counterexample to the claim as stated, in both clauses it
amends.  Decode: with `projectKey = "p"`, the record whose component
is `"a/p:b"` decodes, per the spec's prefix-stripping words, to
`/w/a/p:b`, which does not exist — yet the code removes the first
occurrence of `"p:"` anywhere, resolves `/w/a/b`, and retains the
record.  Line: the record whose `textRange.startLine` is present and
equal to `0` is retained with `line = 1`, not the claimed
`textRange.startLine`. -/
theorem c3_counterexample :
    ((filterByWorkspace [rawC3] "p" "/w" ["/w/a/b"] none).length = 1 ∧
      (["/w/a/b"] : List String).contains (componentAbsPathSpec "p" "/w" rawC3.component)
        = false) ∧
    (rawC3Line.textRange.bind TextRange.startLine = some 0 ∧
      (filterByWorkspace [rawC3Line] "p" "/w" ["/w/c.ts"] none).map SonarIssue.line
        = [1]) :=
  ⟨⟨rfl, rfl⟩, ⟨rfl, rfl⟩⟩

/-- C3 (amended): membership in the reconciler's output is exactly
"some input record, whose path — obtained by removing the FIRST
occurrence of `projectKey:` anywhere in the component, stripping
leading separators and joining to the workspace root — exists and
matches the current file when one is supplied, normalizes to it"; the
normalization defaults message and rule to `"Unknown"`, severity to
`"INFO"` and line to `1` when the fields are missing (or, for the
line, zero), keeps a positive present line, and sets `filePath` to the
resolved absolute path. -/
theorem c3_reconciliation (issues : List RawIssue) (pk root : String)
    (existing : List String) (cf : Option String) :
    (∀ i, i ∈ filterByWorkspace issues pk root existing cf ↔
      ∃ raw, raw ∈ issues ∧
        existing.contains (componentAbsPathCode pk root raw.component) = true ∧
        (∀ c, cf = some c → componentAbsPathCode pk root raw.component = c) ∧
        i = reconcileIssue pk root raw) ∧
    (∀ raw : RawIssue, raw.message = none → (reconcileIssue pk root raw).message = "Unknown") ∧
    (∀ raw : RawIssue, raw.rule = none → (reconcileIssue pk root raw).rule = "Unknown") ∧
    (∀ raw : RawIssue, raw.severity = none → (reconcileIssue pk root raw).severity = "INFO") ∧
    (∀ raw : RawIssue, raw.textRange.bind TextRange.startLine = none →
      (reconcileIssue pk root raw).line = 1) ∧
    (∀ (raw : RawIssue) (n : Nat), raw.textRange.bind TextRange.startLine = some n →
      0 < n → (reconcileIssue pk root raw).line = n) ∧
    (∀ raw : RawIssue,
      (reconcileIssue pk root raw).filePath = componentAbsPathCode pk root raw.component) := by
  refine ⟨?_, ?_, ?_, ?_, ?_, ?_, ?_⟩
  · intro i
    constructor
    · intro hi
      rcases List.mem_map.mp hi with ⟨raw, hraw, hmap⟩
      rcases List.mem_filter.mp hraw with ⟨hmem, hkeep⟩
      rcases (keepIssue_eq_true_iff pk root existing cf raw).mp hkeep with ⟨hex, hcf⟩
      exact ⟨raw, hmem, hex, hcf, hmap.symm⟩
    · rintro ⟨raw, hmem, hex, hcf, rfl⟩
      exact List.mem_map.mpr ⟨raw,
        List.mem_filter.mpr ⟨hmem, (keepIssue_eq_true_iff pk root existing cf raw).mpr
          ⟨hex, hcf⟩⟩, rfl⟩
  · intro raw h; simp [reconcileIssue, jsOrStr, h]
  · intro raw h; simp [reconcileIssue, jsOrStr, h]
  · intro raw h; simp [reconcileIssue, jsOrStr, h]
  · intro raw h; simp [reconcileIssue, jsOrNat, h]
  · intro raw n h hn
    simp [reconcileIssue, jsOrNat, h, Nat.pos_iff_ne_zero.mp hn]
  · intro raw; rfl

/-- C3 witness: the well-formed record `rawGood` resolves to the
existing file `/w/src/a.ts` and is retained, normalized with its own
fields. -/
theorem c3_witness :
    reconcileIssue "p" "/w" rawGood ∈
      filterByWorkspace [rawGood] "p" "/w" ["/w/src/a.ts"] none :=
  ((c3_reconciliation [rawGood] "p" "/w" ["/w/src/a.ts"] none).1
      (reconcileIssue "p" "/w" rawGood)).mpr
    ⟨rawGood, List.mem_singleton.mpr rfl, by decide,
      fun c hc => Option.noConfusion hc, rfl⟩

/-- C1: in a refresh cycle whose mode has the "overall" horizon, a
remote fetch that throws makes the whole refresh return the empty
list (local findings, never obtained in such a cycle, cannot appear in
the output). -/
theorem c1_remote_failure_voids_overall (env : RefreshEnv) (mode : Mode)
    (hm : horizonOf mode = Horizon.overall)
    (hf : env.fetchResult = FetchOutcome.throws) :
    (refreshAllIssues env mode).result = [] := by
  rcases env with ⟨wf, cfg, cur, fr, er, ex, all, sel⟩
  simp only at hf
  subst hf
  cases mode with
  | newAll => simp [horizonOf] at hm
  | newFile => simp [horizonOf] at hm
  | overallAll =>
    cases wf with
    | none => simp [refreshAllIssues]
    | some root =>
      cases cfg with
      | none => simp [refreshAllIssues]
      | some c => simp [refreshAllIssues, modeStartsWithNew]
  | overallFile =>
    cases wf with
    | none => simp [refreshAllIssues]
    | some root =>
      cases cfg with
      | none => simp [refreshAllIssues]
      | some c => simp [refreshAllIssues, modeStartsWithNew]

/-- C1 witness: with the concrete environment `envC1` (remote fetch
throws) and the overall-all mode, the refresh returns no issues. -/
theorem c1_witness :
    horizonOf Mode.overallAll = Horizon.overall ∧
    envC1.fetchResult = FetchOutcome.throws ∧
    (refreshAllIssues envC1 Mode.overallAll).result = [] :=
  ⟨rfl, rfl, c1_remote_failure_voids_overall envC1 Mode.overallAll rfl rfl⟩

/-- C2 counterexample to the claim as stated: in the `overall-all`
mode — whose horizon is "overall", not "new-code" — the refresh still
invokes the local analysis runner (over the workspace's source
files). -/
theorem c2_counterexample :
    horizonOf Mode.overallAll ≠ Horizon.newCode ∧
    (refreshAllIssues envC2 Mode.overallAll).eslintFiles = some ["/w/a.ts"] :=
  ⟨fun h => Horizon.noConfusion h, rfl⟩

/-- C2 (amended): given a workspace and a configuration file, the local
analysis runner is invoked exactly when the mode's horizon is
"new-code", or the mode is `overall-all` and the remote fetch did not
throw; when invoked, the analyzed file set is exactly `[currentFile]`
in the current-file mode with a current file, and the workspace's
source files (by extension, excluding `node_modules`) otherwise. -/
theorem c2_local_invocation (env : RefreshEnv) (mode : Mode) (root : String)
    (cfg : SonarConfig) (hw : env.workspaceFolders = some root)
    (hc : env.configFile = some cfg) :
    ((refreshAllIssues env mode).eslintFiles ≠ none ↔
      (horizonOf mode = Horizon.newCode ∨
        (mode = Mode.overallAll ∧ env.fetchResult ≠ FetchOutcome.throws))) ∧
    (∀ cf, mode = Mode.newFile → env.currentFile = some cf →
      (refreshAllIssues env mode).eslintFiles = some [cf]) ∧
    (mode = Mode.newAll →
      (refreshAllIssues env mode).eslintFiles = some (findFiles env.allWorkspaceFiles)) ∧
    (mode = Mode.overallAll → env.fetchResult ≠ FetchOutcome.throws →
      (refreshAllIssues env mode).eslintFiles = some (findFiles env.allWorkspaceFiles)) ∧
    (mode = Mode.newFile → env.currentFile = none →
      (refreshAllIssues env mode).eslintFiles = some (findFiles env.allWorkspaceFiles)) := by
  rcases env with ⟨wf, cfg2, cur, fr, er, ex, all, sel⟩
  simp only at hw hc
  subst hw
  subst hc
  cases mode <;> cases fr <;> cases cur <;>
    simp [refreshAllIssues, modeStartsWithNew, modeEndsWithFile, horizonOf]

/-- C2 witness: in the new-code current-file mode with a current file,
the analyzed set is exactly that file. -/
theorem c2_witness :
    (refreshAllIssues envC2W Mode.newFile).eslintFiles = some ["/w/cur.ts"] :=
  (c2_local_invocation envC2W Mode.newFile "/w" cfgFull rfl rfl).2.1 "/w/cur.ts" rfl rfl

/-- C8 counterexample to the claim as stated: with a configuration
file that is present but structurally incomplete (all three required
fields missing), a refresh in the `new-all` mode runs the local
analysis and returns its findings — no warning, no empty result, no
short-circuit. -/
theorem c8_counterexample :
    envC8.configFile = some { server := none, token := none, projectKey := none } ∧
    (refreshAllIssues envC8 Mode.newAll).warnedConfigMissing = false ∧
    (refreshAllIssues envC8 Mode.newAll).eslintFiles ≠ none ∧
    (refreshAllIssues envC8 Mode.newAll).result ≠ [] := by
  refine ⟨rfl, rfl, ?_, ?_⟩ <;> decide

/-- C8 (amended): if the configuration FILE is absent at the start of
a refresh (in an open workspace), the refresh warns and returns the
empty list, with no remote request and no local analysis; a present
but structurally incomplete configuration is not detected and does not
short-circuit the refresh. -/
theorem c8_config_missing (env : RefreshEnv) (mode : Mode) (root : String)
    (hw : env.workspaceFolders = some root) (hc : env.configFile = none) :
    refreshAllIssues env mode =
      { result := [], fetchCalled := false, eslintFiles := none
        warnedConfigMissing := true, published := none, storeIssues := none } := by
  rcases env with ⟨wf, cfg, cur, fr, er, ex, all, sel⟩
  simp only at hw hc
  subst hw
  subst hc
  simp [refreshAllIssues]

/-- C8 witness: with the configuration file missing, the overall-all
refresh produces the short-circuit trace. -/
theorem c8_witness :
    envC8W.workspaceFolders = some "/w" ∧ envC8W.configFile = none ∧
    refreshAllIssues envC8W Mode.overallAll =
      { result := [], fetchCalled := false, eslintFiles := none
        warnedConfigMissing := true, published := none, storeIssues := none } :=
  ⟨rfl, rfl, c8_config_missing envC8W Mode.overallAll "/w" rfl rfl⟩

/-- C9: a lint-engine failure is confined to the local branch: the
whole refresh behaves exactly as if the engine had returned no
findings, the local half of every diagnostics publication is empty,
and in the overall-all mode with a successful remote fetch the
filtered remote issues still make up the returned list, the store
update and the diagnostics publication. -/
theorem c9_local_failure_isolated (env : RefreshEnv) (mode : Mode) (e : String)
    (he : env.eslintResult = Except.error e) :
    refreshAllIssues env mode =
      refreshAllIssues { env with eslintResult := Except.ok [] } mode ∧
    (∀ r l, (refreshAllIssues env mode).published = some (r, l) → l = []) ∧
    (∀ root cfg raw, env.workspaceFolders = some root → env.configFile = some cfg →
      env.fetchResult = FetchOutcome.returns raw → mode = Mode.overallAll →
      (refreshAllIssues env mode).result =
        filterBySeverities env.selectedSeverities
          (filterByWorkspace raw (jsStr cfg.projectKey) root env.existingPaths none) ∧
      (refreshAllIssues env mode).storeIssues = some ((refreshAllIssues env mode).result) ∧
      (refreshAllIssues env mode).published =
        some ((refreshAllIssues env mode).result, [])) := by
  rcases env with ⟨wf, cfg2, cur, fr, er, ex, all, sel⟩
  simp only at he
  subst he
  refine ⟨?_, ?_, ?_⟩
  · cases wf <;> [skip; cases cfg2] <;> cases mode <;> cases fr <;>
      simp [refreshAllIssues, modeStartsWithNew, modeEndsWithFile, runESLintAnalysis]
  · intro r l h
    cases wf <;> [skip; cases cfg2] <;> cases mode <;> cases fr <;>
      simp_all [refreshAllIssues, modeStartsWithNew, modeEndsWithFile, filterBySeverities]
  · intro root cfg raw hw hc hf hm
    simp only at hw hc hf
    subst hw
    subst hc
    subst hf
    subst hm
    simp [refreshAllIssues, modeStartsWithNew, modeEndsWithFile, filterBySeverities]

/-- C9 witness: with a remote record that reconciles to an existing
file and a lint engine that throws, the filtered remote issue still
reaches the result, the store and the diagnostics publication, with an
empty local half. -/
theorem c9_witness :
    (refreshAllIssues envC9 Mode.overallAll).result =
      filterBySeverities envC9.selectedSeverities
        (filterByWorkspace [rawGood] (jsStr cfgFull.projectKey) "/w"
          envC9.existingPaths none) ∧
    (refreshAllIssues envC9 Mode.overallAll).published =
      some ((refreshAllIssues envC9 Mode.overallAll).result, []) :=
  ⟨((c9_local_failure_isolated envC9 Mode.overallAll "boom" rfl).2.2
      "/w" cfgFull [rawGood] rfl rfl rfl rfl).1,
   ((c9_local_failure_isolated envC9 Mode.overallAll "boom" rfl).2.2
      "/w" cfgFull [rawGood] rfl rfl rfl rfl).2.2⟩

/-- A key of the map after one grouping step is an old key or the
inserted issue's file. -/
theorem mem_keys_insertIssue {m : List (String × List SonarIssue)} {i : SonarIssue}
    {f : String} (h : f ∈ (insertIssue m i).map Prod.fst) :
    f ∈ m.map Prod.fst ∨ f = i.filePath := by
  unfold insertIssue at h
  by_cases hc : (m.map Prod.fst).contains i.filePath
  · rw [if_pos hc] at h
    left
    rw [List.map_map] at h
    have hfst : (Prod.fst ∘ fun p : String × List SonarIssue =>
        if p.1 = i.filePath then (p.1, p.2 ++ [i]) else p) = Prod.fst := by
      funext p
      by_cases hp : p.1 = i.filePath <;> simp [hp]
    rwa [hfst] at h
  · rw [if_neg hc, List.map_append] at h
    rcases List.mem_append.mp h with h1 | h2
    · exact Or.inl h1
    · right; simpa using h2

/-- A key of the grouping fold comes from the accumulator or from one
of the folded issues. -/
theorem mem_keys_groupAux :
    ∀ (issues : List SonarIssue) (acc : List (String × List SonarIssue)) (f : String),
      f ∈ (issues.foldl insertIssue acc).map Prod.fst →
      f ∈ acc.map Prod.fst ∨ ∃ i ∈ issues, i.filePath = f := by
  intro issues
  induction issues with
  | nil => exact fun acc f h => Or.inl h
  | cons a as ih =>
    intro acc f h
    rcases ih (insertIssue acc a) f h with h1 | h2
    · rcases mem_keys_insertIssue h1 with h3 | h4
      · exact Or.inl h3
      · exact Or.inr ⟨a, by simp, h4.symm⟩
    · rcases h2 with ⟨i, hi, hf⟩
      exact Or.inr ⟨i, by simp [hi], hf⟩

/-- C7: `setIssues` rebuilds the grouping from its input alone (every
surviving file key names a file of the new input), publishes the
fixed "no issues" placeholder on empty input and clears any message on
non-empty input when a view is attached, and always fires exactly one
change notification. -/
theorem c7_setIssues (issues : List SonarIssue) (st : ProviderState) :
    (∀ f, f ∈ (setIssues issues st).issuesByFile.map Prod.fst →
      ∃ i ∈ issues, i.filePath = f) ∧
    (st.hasTreeView = true → issues = [] →
      (setIssues issues st).message = some noIssuesMessage) ∧
    (st.hasTreeView = true → issues ≠ [] → (setIssues issues st).message = none) ∧
    (setIssues issues st).changeEvents = st.changeEvents + 1 := by
  refine ⟨?_, ?_, ?_, rfl⟩
  · intro f h
    have hmem := mem_keys_groupAux issues [] f (by simpa [setIssues, groupByFile] using h)
    simpa using hmem
  · intro hv he
    subst he
    simp [setIssues, hv]
  · intro hv hne
    have hlen : issues.length ≠ 0 := by simpa [List.length_eq_zero] using hne
    simp [setIssues, hv, hlen]

/-- C7 witness: with a view attached and a prior entry in the store,
an empty update shows the placeholder, and any update bumps the change
counter once. -/
theorem c7_witness :
    stC7.hasTreeView = true ∧
    (setIssues [] stC7).message = some noIssuesMessage ∧
    (setIssues [issueA] stC7).changeEvents = stC7.changeEvents + 1 :=
  ⟨rfl, (c7_setIssues [] stC7).2.1 rfl rfl, (c7_setIssues [issueA] stC7).2.2.2⟩

/-- Looking up a key that is not among the map's keys yields `none`. -/
theorem lookup_none_of_not_mem_keys (l : List (String × List SonarIssue)) (f : String)
    (h : f ∉ l.map Prod.fst) : l.lookup f = none := by
  induction l with
  | nil => rfl
  | cons p rest ih =>
    have h1 : ¬(p.1 = f) := fun he => h (by simp [he])
    have h2 : f ∉ rest.map Prod.fst := fun hm => h (by simp [hm])
    have hb : (f == p.1) = false := beq_eq_false_iff_ne.mpr (fun he => h1 he.symm)
    simp [List.lookup, hb, ih h2]

/-- C10: `getChildren` is total over every store state: with no parent
it yields exactly the file keys in sorted (lexicographic) order; with
a file key that has no entry it yields the empty list rather than
failing; with an issue node it yields the empty list. -/
theorem c10_getChildren_total (st : ProviderState) :
    (∃ ks : List String, getChildren st none = ks.map TreeElem.file ∧
      List.Sorted (· ≤ ·) ks ∧ List.Perm ks (st.issuesByFile.map Prod.fst)) ∧
    (∀ f : String, (st.issuesByFile.map Prod.fst).contains f = false →
      getChildren st (some (TreeElem.file f)) = []) ∧
    (∀ i : SonarIssue, getChildren st (some (TreeElem.item i)) = []) := by
  refine ⟨⟨(st.issuesByFile.map Prod.fst).insertionSort (· ≤ ·), rfl, ?_, ?_⟩, ?_, ?_⟩
  · exact List.sorted_insertionSort _ _
  · exact List.perm_insertionSort _ _
  · intro f h
    have hm : f ∉ st.issuesByFile.map Prod.fst := by simpa using h
    simp [getChildren, lookup_none_of_not_mem_keys _ _ hm]
  · exact fun i => rfl

/-- C10 witness: querying a file key absent from the concrete store
yields the empty list. -/
theorem c10_witness :
    (stC10.issuesByFile.map Prod.fst).contains "/nope" = false ∧
    getChildren stC10 (some (TreeElem.file "/nope")) = [] :=
  ⟨rfl, (c10_getChildren_total stC10).2.1 "/nope" rfl⟩

end SonarFinder
